import Mathlib

/-!
Verification of the multi-criteria siting decision engine of the
data-center-location-analysis repository.

The repository's visible source is the React frontend: the duplicated
five-tier score classifiers (`getScoreLevel` / `getScoreColor`) in the
`AnalysisResults` and `DecisionAnalysis` components, the mitigation-list
rendering in `DecisionAnalysis`, and the custom-coordinate guard in
`App.tsx`.  Those are embedded here directly from the source.  The backend
decision engine (normalizer, goal-programming aggregator, risk assessor,
pipeline) is referenced by the repository but its code is not among the
source files, so it is modelled from the specification; each such
definition carries a doc comment saying so.

Scores are JavaScript numbers in the source; they are embedded as
rationals, which represent all the decimal literals the code and the
spec compare against exactly.
-/

namespace AnalysisResults

/-- Embeds `getScoreLevel` of the `AnalysisResults` component
(`src/unnamed/part_000`, lines 42-48). -/
def getScoreLevel (score : ℚ) : String :=
  if score ≥ 90 then "优秀"
  else if score ≥ 75 then "良好"
  else if score ≥ 60 then "一般"
  else if score ≥ 45 then "较差"
  else "很差"

/-- Embeds `getScoreColor` of the `AnalysisResults` component
(`src/unnamed/part_000`, lines 34-40). -/
def getScoreColor (score : ℚ) : String :=
  if score ≥ 90 then "#52c41a"
  else if score ≥ 75 then "#1890ff"
  else if score ≥ 60 then "#faad14"
  else if score ≥ 45 then "#ff7875"
  else "#f5222d"

end AnalysisResults

namespace DecisionAnalysis

/-- Embeds `getScoreLevel` of the `DecisionAnalysis` component
(`src/unnamed/part_001`, lines 170-176). -/
def getScoreLevel (score : ℚ) : String :=
  if score ≥ 90 then "优秀"
  else if score ≥ 75 then "良好"
  else if score ≥ 60 then "一般"
  else if score ≥ 45 then "较差"
  else "很差"

/-- Embeds `getScoreColor` of the `DecisionAnalysis` component
(`src/unnamed/part_001`, lines 162-168). -/
def getScoreColor (score : ℚ) : String :=
  if score ≥ 90 then "#52c41a"
  else if score ≥ 75 then "#1890ff"
  else if score ≥ 60 then "#faad14"
  else if score ≥ 45 then "#ff7875"
  else "#f5222d"

end DecisionAnalysis

/-- Ordinal rank of a five-tier level label, for stating monotonicity:
很差 < 较差 < 一般 < 良好 < 优秀. -/
def levelRank (level : String) : ℕ :=
  if level = "优秀" then 4
  else if level = "良好" then 3
  else if level = "一般" then 2
  else if level = "较差" then 1
  else 0

section ClassifierLemmas

lemma getScoreLevel_excellent_iff (s : ℚ) :
    DecisionAnalysis.getScoreLevel s = "优秀" ↔ s ≥ 90 := by
  unfold DecisionAnalysis.getScoreLevel
  split_ifs with h1 h2 h3 h4
  · exact iff_of_true rfl h1
  · exact iff_of_false (by decide) h1
  · exact iff_of_false (by decide) h1
  · exact iff_of_false (by decide) h1
  · exact iff_of_false (by decide) h1

lemma getScoreLevel_good_iff (s : ℚ) :
    DecisionAnalysis.getScoreLevel s = "良好" ↔ 75 ≤ s ∧ s < 90 := by
  unfold DecisionAnalysis.getScoreLevel
  split_ifs with h1 h2 h3 h4
  · exact iff_of_false (by decide) (fun hc => absurd h1 (not_le.mpr hc.2))
  · exact iff_of_true rfl ⟨h2, not_le.mp h1⟩
  · exact iff_of_false (by decide) (fun hc => h2 hc.1)
  · exact iff_of_false (by decide) (fun hc => h2 hc.1)
  · exact iff_of_false (by decide) (fun hc => h2 hc.1)

lemma getScoreLevel_fair_iff (s : ℚ) :
    DecisionAnalysis.getScoreLevel s = "一般" ↔ 60 ≤ s ∧ s < 75 := by
  unfold DecisionAnalysis.getScoreLevel
  split_ifs with h1 h2 h3 h4
  · exact iff_of_false (by decide) (fun hc => absurd h1 (not_le.mpr (hc.2.trans (by norm_num))))
  · exact iff_of_false (by decide) (fun hc => absurd h2 (not_le.mpr hc.2))
  · exact iff_of_true rfl ⟨h3, not_le.mp h2⟩
  · exact iff_of_false (by decide) (fun hc => h3 hc.1)
  · exact iff_of_false (by decide) (fun hc => h3 hc.1)

lemma getScoreLevel_poor_iff (s : ℚ) :
    DecisionAnalysis.getScoreLevel s = "较差" ↔ 45 ≤ s ∧ s < 60 := by
  unfold DecisionAnalysis.getScoreLevel
  split_ifs with h1 h2 h3 h4
  · exact iff_of_false (by decide) (fun hc => absurd h1 (not_le.mpr (hc.2.trans (by norm_num))))
  · exact iff_of_false (by decide) (fun hc => absurd h2 (not_le.mpr (hc.2.trans (by norm_num))))
  · exact iff_of_false (by decide) (fun hc => absurd h3 (not_le.mpr hc.2))
  · exact iff_of_true rfl ⟨h4, not_le.mp h3⟩
  · exact iff_of_false (by decide) (fun hc => h4 hc.1)

lemma getScoreLevel_veryPoor_iff (s : ℚ) :
    DecisionAnalysis.getScoreLevel s = "很差" ↔ s < 45 := by
  unfold DecisionAnalysis.getScoreLevel
  split_ifs with h1 h2 h3 h4
  · exact iff_of_false (by decide) (fun hc => absurd h1 (not_le.mpr (hc.trans (by norm_num))))
  · exact iff_of_false (by decide) (fun hc => absurd h2 (not_le.mpr (hc.trans (by norm_num))))
  · exact iff_of_false (by decide) (fun hc => absurd h3 (not_le.mpr (hc.trans (by norm_num))))
  · exact iff_of_false (by decide) (fun hc => absurd h4 (not_le.mpr hc))
  · exact iff_of_true rfl (not_le.mp h4)

lemma levelRank_getScoreLevel (s : ℚ) :
    levelRank (DecisionAnalysis.getScoreLevel s) =
      if s ≥ 90 then 4 else if s ≥ 75 then 3 else if s ≥ 60 then 2
      else if s ≥ 45 then 1 else 0 := by
  unfold DecisionAnalysis.getScoreLevel
  split_ifs <;> decide

end ClassifierLemmas

namespace App

/-- One coordinate text field of the custom-coordinate form in
`src/frontend/src/App.tsx`: `nonEmpty` is the JavaScript truthiness of the
input string (`customLat && customLng`), `parsed` is the result of
`parseFloat` on it, with `none` standing for `NaN` (every numeric
comparison against `NaN` is false in JavaScript, which the embedding
realises by sending `none` to the invalid-range branch). -/
structure CoordInput where
  nonEmpty : Bool
  parsed : Option ℚ

/-- What the click handler of the custom-coordinate analyze button does:
issue the analysis request, or raise one of the two user alerts. -/
inductive ClickAction where
  | analyzeRequest (lat lng radius : ℚ)
  | alertInvalidRange
  | alertMissing
deriving DecidableEq

/-- Embeds the `onClick` handler of the custom-coordinate analyze button
(`src/frontend/src/App.tsx`, lines 768-786): when both fields are truthy
the strings are parsed and the request is issued only if the parsed
latitude lies in [-90, 90] and the parsed longitude in [-180, 180];
otherwise an alert is raised and no request is issued. -/
def customAnalyzeClick (latF lngF : CoordInput) (radius : ℚ) : ClickAction :=
  if latF.nonEmpty && lngF.nonEmpty then
    match latF.parsed, lngF.parsed with
    | some lat, some lng =>
        if -90 ≤ lat ∧ lat ≤ 90 ∧ -180 ≤ lng ∧ lng ≤ 180 then
          .analyzeRequest lat lng radius
        else .alertInvalidRange
    | _, _ => .alertInvalidRange
  else .alertMissing

end App

namespace DecisionAnalysis

/-- How the `DecisionAnalysis` component presents the mitigation measures:
either the list itself, or the explicit no-mitigation `Alert`. -/
inductive MitigationRendering where
  | measuresList (measures : List String)
  | noMitigationAlert
deriving DecidableEq

/-- Embeds the mitigation-measures branch of the `DecisionAnalysis`
component (`src/unnamed/part_001`, lines 352-372): a non-empty
`mitigation_measures` list is rendered as a `List`, an empty one as the
explicit 暂无风险缓解措施 `Alert`. -/
def renderMitigation (measures : List String) : MitigationRendering :=
  if 0 < measures.length then .measuresList measures else .noMitigationAlert

end DecisionAnalysis

namespace Engine

/-- Modelled from the spec: the backend decision engine
(`backend/services/promethee_mcgp_analysis.py`) is not among the source
files.  A raw measurement value as validated at the boundary (§4.1):
present and finite, or missing, or non-finite (NaN/Infinity). -/
inductive RawValue where
  | missing
  | nonFinite
  | finite (x : ℚ)
deriving DecidableEq

/-- Modelled from the spec: the two meta-groups of the goal-programming
aggregator (§4.3). -/
inductive FactorGroup where
  | economic
  | naturalTechnical
deriving DecidableEq

/-- Modelled from the spec: a criterion of the missing engine (§3):
identifier, declared physical domain, weight, group membership and the
configured normalization curve (an arbitrary function of the raw value;
the exact curve is configuration, not engine logic). -/
structure Criterion where
  id : String
  domainLo : ℚ
  domainHi : ℚ
  weight : ℚ
  group : FactorGroup
  curve : ℚ → ℚ

/-- Modelled from the spec: a derived per-criterion score (§3), a number
in [0,100] together with its five-tier level label. -/
structure CriterionScore where
  id : String
  score : ℚ
  level : String
deriving DecidableEq

/-- Modelled from the spec: the engine's error taxonomy (§7):
`invalidMeasurement` names the offending criterion, `configurationError`
is detected at process start. -/
inductive EngineError where
  | invalidMeasurement (criterionId : String) (reason : String)
  | configurationError (detail : String)
deriving DecidableEq

/-- Modelled from the spec: the saturation policy of the normalizer
(§4.1): outputs are clamped to [0,100], never an error. -/
def clampScore (x : ℚ) : ℚ := max 0 (min 100 x)

/-- Modelled from the spec: boundary validation of a raw value against a
criterion (§4.1): it must be present, finite, and inside the declared
physical domain. -/
def validValue (c : Criterion) : RawValue → Bool
  | .finite x => decide (c.domainLo ≤ x ∧ x ≤ c.domainHi)
  | _ => false

/-- Modelled from the spec: `normalize(criterion, rawValue)` of the
missing engine (§4.1): fails with `InvalidMeasurement` if the raw value
is missing, non-finite, or outside the criterion's declared physical
domain; otherwise applies the configured curve and clamps to [0,100]. -/
def normalize (c : Criterion) (v : RawValue) : Except EngineError CriterionScore :=
  match v with
  | .missing => .error (.invalidMeasurement c.id "missing")
  | .nonFinite => .error (.invalidMeasurement c.id "non-finite")
  | .finite x =>
      if c.domainLo ≤ x ∧ x ≤ c.domainHi then
        .ok ⟨c.id, clampScore (c.curve x),
          DecisionAnalysis.getScoreLevel (clampScore (c.curve x))⟩
      else .error (.invalidMeasurement c.id "out of physical domain")

/-- Modelled from the spec: the raw measurement supplied for a criterion
identifier; a measurement absent from the request is a missing value
(§9: missing fields become an explicit `InvalidMeasurement` failure). -/
def lookupRaw (input : List (String × RawValue)) (cid : String) : RawValue :=
  match input.find? (fun p => decide (p.1 = cid)) with
  | some p => p.2
  | none => .missing

/-- Modelled from the spec: boundary validation of the whole measurement
set, fail-fast (§7): the criteria are normalized in order and the first
invalid measurement aborts the analysis with no partial result. -/
def normalizeAll (input : List (String × RawValue)) :
    List Criterion → Except EngineError (List CriterionScore)
  | [] => .ok []
  | c :: rest =>
    match normalize c (lookupRaw input c.id) with
    | .error e => .error e
    | .ok s =>
      match normalizeAll input rest with
      | .error e => .error e
      | .ok tail => .ok (s :: tail)

/-- Modelled from the spec: a goal of the goal-programming aggregator
(§3): per group, a target value and a priority weight. -/
structure GoalSpec where
  target : ℚ
  priority : ℚ
deriving DecidableEq

/-- Modelled from the spec: the one-sided deviation penalty of the
goal-programming aggregator (§4.3): negative deviation
`max(0, target − groupScore)` is penalized by `priority · deviation`;
positive deviation is not penalized. -/
def goalPenalty (g : GoalSpec) (groupScore : ℚ) : ℚ :=
  g.priority * max 0 (g.target - groupScore)

/-- Modelled from the spec: the composite penalty term (§4.3), the sum of
the weighted one-sided deviations of the groups from their goals. -/
def totalPenalty (groups : List (GoalSpec × ℚ)) : ℚ :=
  (groups.map (fun p => goalPenalty p.1 p.2)).sum

/-- Modelled from the spec: the score of one meta-group (§4.3), the
weighted sum `Σ weight_c · score_c` over the group's criteria. -/
def weightedGroupScore (grp : FactorGroup)
    (pairs : List (Criterion × CriterionScore)) : ℚ :=
  ((pairs.filter (fun p => decide (p.1.group = grp))).map
    (fun p => p.1.weight * p.2.score)).sum

/-- Modelled from the spec: the static configuration of the missing
engine (§3, §5): criteria, goals and group weights, loaded once and never
mutated. -/
structure EngineConfig where
  criteria : List Criterion
  economicGoal : GoalSpec
  naturalGoal : GoalSpec
  economicWeight : ℚ
  naturalWeight : ℚ

/-- Modelled from the spec: the composite score (§4.3): the weighted sum
of group scores minus the sum of weighted penalties, clamped to
[0,100]. -/
def compositeScore (cfg : EngineConfig)
    (pairs : List (Criterion × CriterionScore)) : ℚ :=
  let sE := weightedGroupScore .economic pairs
  let sN := weightedGroupScore .naturalTechnical pairs
  clampScore (cfg.economicWeight * sE + cfg.naturalWeight * sN -
    totalPenalty [(cfg.economicGoal, sE), (cfg.naturalGoal, sN)])

/-- Modelled from the spec: the criteria whose score is below the Fair
threshold (§4.5: score < 60), the inputs of the risk assessor. -/
def belowFair (scores : List CriterionScore) : List CriterionScore :=
  scores.filter (fun c => decide (c.score < 60))

/-- Modelled from the spec: the named risk factor emitted for one
sub-threshold criterion (§4.5), keyed by the criterion identifier. -/
def riskName (cid : String) : String := cid ++ "不足"

/-- Modelled from the spec: the mitigation suggestion drawn from the rule
table keyed by the criterion identifier (§4.5). -/
def mitigationName (cid : String) : String := "加强" ++ cid ++ "保障"

/-- Modelled from the spec: the risk assessment of the result payload
(§6): risk level 低/中/高, named risks, mitigation measures. -/
structure RiskAssessment where
  risk_level : String
  risks : List String
  mitigation_measures : List String
deriving DecidableEq

/-- Modelled from the spec: `assessRisk(scores, compositeScore)` of the
missing engine (§4.5): zero criteria below the Fair threshold give Low
risk, one gives Medium, two or more — or any criterion in 很差 — give
High; each sub-threshold criterion yields a named risk factor and a
mitigation suggestion. -/
def assessRisk (scores : List CriterionScore) (composite : ℚ) : RiskAssessment :=
  { risk_level :=
      if 2 ≤ (belowFair scores).length ∨
          ∃ c ∈ belowFair scores, DecisionAnalysis.getScoreLevel c.score = "很差"
      then "高"
      else if (belowFair scores).length = 1 then "中"
      else "低"
    risks := (belowFair scores).map (fun c => riskName c.id)
    mitigation_measures := (belowFair scores).map (fun c => mitigationName c.id) }

/-- Modelled from the spec: the decision tier derived from the composite
score's level (§4.4), preserving ordinal order. -/
def decisionTier (level : String) : String :=
  if level = "优秀" then "强烈推荐"
  else if level = "良好" then "推荐"
  else if level = "一般" then "可以考虑"
  else if level = "较差" then "不推荐"
  else "强烈不推荐"

/-- Modelled from the spec: the recommendation synthesizer (§4.6): one
deduplicated recommendation per sub-threshold criterion followed by a
tier-level conclusion, so the sequence is never empty. -/
def synthesize (scores : List CriterionScore) (tier : String) : List String :=
  ((belowFair scores).map (fun c => "优先改善" ++ c.id)).dedup ++
    ["综合结论：" ++ tier]

/-- Modelled from the spec: the externally visible `DecisionResult` value
object (§3, §6): composite score with level, decision tier, detailed
per-criterion scores, risk assessment, recommendations and the analysis
timestamp. -/
structure DecisionResult where
  overallScore : ℚ
  overallLevel : String
  decisionLevel : String
  detailedScores : List CriterionScore
  riskAssessment : RiskAssessment
  recommendations : List String
  analysisDate : ℕ
deriving DecidableEq

/-- Modelled from the spec: the full single-candidate analysis pipeline
of the missing engine (§2, §4): normalize every criterion's raw
measurement (fail-fast on an invalid one), aggregate group scores against
the goals into the composite, classify, assess risk, synthesize
recommendations, and stamp the analysis date. -/
def runPipeline (cfg : EngineConfig) (input : List (String × RawValue))
    (now : ℕ) : Except EngineError DecisionResult :=
  match normalizeAll input cfg.criteria with
  | .error e => .error e
  | .ok scores =>
    let composite := compositeScore cfg (cfg.criteria.zip scores)
    let level := DecisionAnalysis.getScoreLevel composite
    .ok { overallScore := composite
          overallLevel := level
          decisionLevel := decisionTier level
          detailedScores := scores
          riskAssessment := assessRisk scores composite
          recommendations := synthesize scores (decisionTier level)
          analysisDate := now }

/-- The timestamp-erasing projection used to state determinism modulo the
analysis date. -/
def stripDate (r : DecisionResult) : DecisionResult :=
  { r with analysisDate := 0 }

end Engine

/-- A concrete criterion used to witness the clamping property: its
configured curve has a natural range exceeding [0,100]. -/
def gridCriterion : Engine.Criterion :=
  { id := "grid_capacity", domainLo := 0, domainHi := 1000, weight := 1 / 5,
    group := .naturalTechnical, curve := fun x => x / 5 }

/-- Concrete goals used to witness the one-sidedness of the
goal-programming penalty. -/
def economicGoalWit : Engine.GoalSpec := { target := 70, priority := 2 }

/-- Second concrete goal for the one-sidedness witness. -/
def naturalGoalWit : Engine.GoalSpec := { target := 80, priority := 3 }

/-- C1: for every numeric score the classifier assigns the level by the fixed
thresholds, boundary values belonging to the higher tier (score ≥ 90 ↦ 优秀,
75 ≤ score < 90 ↦ 良好, 60 ≤ score < 75 ↦ 一般, 45 ≤ score < 60 ↦ 较差,
score < 45 ↦ 很差); in particular 90, 75, 60, 45 map to 优秀, 良好, 一般,
较差 respectively, while 89.999 maps to 良好 and 44.999 maps to 很差. -/
theorem scoreLevel_fixed_thresholds :
    ∀ s : ℚ,
      (DecisionAnalysis.getScoreLevel s = "优秀" ↔ s ≥ 90) ∧
      (DecisionAnalysis.getScoreLevel s = "良好" ↔ 75 ≤ s ∧ s < 90) ∧
      (DecisionAnalysis.getScoreLevel s = "一般" ↔ 60 ≤ s ∧ s < 75) ∧
      (DecisionAnalysis.getScoreLevel s = "较差" ↔ 45 ≤ s ∧ s < 60) ∧
      (DecisionAnalysis.getScoreLevel s = "很差" ↔ s < 45) ∧
      DecisionAnalysis.getScoreLevel 90 = "优秀" ∧
      DecisionAnalysis.getScoreLevel 75 = "良好" ∧
      DecisionAnalysis.getScoreLevel 60 = "一般" ∧
      DecisionAnalysis.getScoreLevel 45 = "较差" ∧
      DecisionAnalysis.getScoreLevel ((89999 : ℚ) / 1000) = "良好" ∧
      DecisionAnalysis.getScoreLevel ((44999 : ℚ) / 1000) = "很差" := by
  intro s
  refine ⟨getScoreLevel_excellent_iff s, getScoreLevel_good_iff s,
    getScoreLevel_fair_iff s, getScoreLevel_poor_iff s, getScoreLevel_veryPoor_iff s,
    (getScoreLevel_excellent_iff 90).mpr (by norm_num),
    (getScoreLevel_good_iff 75).mpr (by norm_num),
    (getScoreLevel_fair_iff 60).mpr (by norm_num),
    (getScoreLevel_poor_iff 45).mpr (by norm_num),
    (getScoreLevel_good_iff ((89999 : ℚ) / 1000)).mpr (by norm_num),
    (getScoreLevel_veryPoor_iff ((44999 : ℚ) / 1000)).mpr (by norm_num)⟩

/-- C8: the score classifier is total and ordinally monotone: every numeric
score maps to exactly one of the five levels, and classification is
non-decreasing in the score under the order 很差 < 较差 < 一般 < 良好 <
优秀 (measured by `levelRank`). -/
theorem scoreLevel_total_and_monotone :
    ∀ x y : ℚ,
      (DecisionAnalysis.getScoreLevel x = "很差" ∨
        DecisionAnalysis.getScoreLevel x = "较差" ∨
        DecisionAnalysis.getScoreLevel x = "一般" ∨
        DecisionAnalysis.getScoreLevel x = "良好" ∨
        DecisionAnalysis.getScoreLevel x = "优秀") ∧
      (∃! l : String, DecisionAnalysis.getScoreLevel x = l) ∧
      (x ≤ y →
        levelRank (DecisionAnalysis.getScoreLevel x) ≤
          levelRank (DecisionAnalysis.getScoreLevel y)) := by
  intro x y
  refine ⟨?_, ⟨DecisionAnalysis.getScoreLevel x, rfl, fun _ h => h.symm⟩, ?_⟩
  · unfold DecisionAnalysis.getScoreLevel
    split_ifs <;> simp
  · intro hxy
    rw [levelRank_getScoreLevel, levelRank_getScoreLevel]
    split_ifs <;> try omega
    all_goals exfalso
    all_goals push_neg at *
    all_goals linarith

/-- C9: the two independently defined five-tier classifiers in the UI
components are extensionally equal: `getScoreLevel` in `AnalysisResults`
and in `DecisionAnalysis` return the same level for every score, and the
two `getScoreColor` functions return the same color. -/
theorem duplicated_classifiers_agree :
    ∀ s : ℚ,
      AnalysisResults.getScoreLevel s = DecisionAnalysis.getScoreLevel s ∧
      AnalysisResults.getScoreColor s = DecisionAnalysis.getScoreColor s :=
  fun _ => ⟨rfl, rfl⟩

/-- C10: the custom-coordinate analysis entry point guards its input: an
analysis request is issued only when both coordinates are provided, parse
to numbers, and the parsed latitude lies in [-90, 90] and the parsed
longitude in [-180, 180]; for any missing, unparseable, or out-of-range
coordinate the handler raises a user alert and issues no analysis
request. -/
theorem customCoordinate_guard :
    ∀ (latF lngF : App.CoordInput) (radius : ℚ),
      (∀ lat lng r,
        App.customAnalyzeClick latF lngF radius = .analyzeRequest lat lng r →
          latF.nonEmpty = true ∧ lngF.nonEmpty = true ∧
          latF.parsed = some lat ∧ lngF.parsed = some lng ∧
          -90 ≤ lat ∧ lat ≤ 90 ∧ -180 ≤ lng ∧ lng ≤ 180 ∧ r = radius) ∧
      ((latF.nonEmpty = false ∨ lngF.nonEmpty = false) →
        App.customAnalyzeClick latF lngF radius = .alertMissing) ∧
      (∀ lat lng, latF.nonEmpty = true → lngF.nonEmpty = true →
        latF.parsed = some lat → lngF.parsed = some lng →
        ¬(-90 ≤ lat ∧ lat ≤ 90 ∧ -180 ≤ lng ∧ lng ≤ 180) →
        App.customAnalyzeClick latF lngF radius = .alertInvalidRange) ∧
      (latF.nonEmpty = true → lngF.nonEmpty = true →
        (latF.parsed = none ∨ lngF.parsed = none) →
        App.customAnalyzeClick latF lngF radius = .alertInvalidRange) := by
  intro latF lngF radius
  obtain ⟨la, lp⟩ := latF
  obtain ⟨ga, gp⟩ := lngF
  refine ⟨?_, ?_, ?_, ?_⟩
  · intro lat lng r h
    cases la with
    | false => exact absurd h (by simp [App.customAnalyzeClick])
    | true =>
      cases ga with
      | false => exact absurd h (by simp [App.customAnalyzeClick])
      | true =>
        cases lp with
        | none => exact absurd h (by simp [App.customAnalyzeClick])
        | some a =>
          cases gp with
          | none => exact absurd h (by simp [App.customAnalyzeClick])
          | some b =>
            unfold App.customAnalyzeClick at h
            rw [if_pos (by simp)] at h
            dsimp only at h
            by_cases hr : -90 ≤ a ∧ a ≤ 90 ∧ -180 ≤ b ∧ b ≤ 180
            · rw [if_pos hr] at h
              injection h with e1 e2 e3
              subst e1; subst e2; subst e3
              exact ⟨rfl, rfl, rfl, rfl, hr.1, hr.2.1, hr.2.2.1, hr.2.2.2, rfl⟩
            · rw [if_neg hr] at h
              exact App.ClickAction.noConfusion h
  · rintro (h | h) <;> subst h <;> simp [App.customAnalyzeClick]
  · intro lat lng h1 h2 h3 h4 hr
    subst h1; subst h2; subst h3; subst h4
    simp only [App.customAnalyzeClick, Bool.and_self, if_true]
    exact if_neg hr
  · intro h1 h2 h3
    subst h1; subst h2
    rcases h3 with h | h <;> subst h
    · cases gp <;> simp [App.customAnalyzeClick]
    · cases lp <;> simp [App.customAnalyzeClick]

section EngineLemmas

lemma clampScore_nonneg (x : ℚ) : 0 ≤ Engine.clampScore x := le_max_left 0 _

lemma clampScore_le_100 (x : ℚ) : Engine.clampScore x ≤ 100 :=
  max_le (by norm_num) (min_le_left _ _)

lemma normalize_ok_iff (c : Engine.Criterion) (v : Engine.RawValue) :
    (∃ s, Engine.normalize c v = .ok s) ↔ Engine.validValue c v = true := by
  cases v with
  | missing => simp [Engine.normalize, Engine.validValue]
  | nonFinite => simp [Engine.normalize, Engine.validValue]
  | finite x =>
    simp only [Engine.normalize, Engine.validValue]
    split_ifs with h <;> simp [h]

lemma normalize_error_shape (c : Engine.Criterion) (v : Engine.RawValue)
    (e : Engine.EngineError) (h : Engine.normalize c v = .error e) :
    (∃ msg, e = .invalidMeasurement c.id msg) ∧
      Engine.validValue c v = false := by
  cases v with
  | missing =>
    unfold Engine.normalize at h
    injection h with h
    exact ⟨⟨"missing", h.symm⟩, rfl⟩
  | nonFinite =>
    unfold Engine.normalize at h
    injection h with h
    exact ⟨⟨"non-finite", h.symm⟩, rfl⟩
  | finite x =>
    simp only [Engine.normalize] at h
    split_ifs at h with hd
    injection h with h
    exact ⟨⟨"out of physical domain", h.symm⟩, by simp [Engine.validValue, hd]⟩

lemma normalize_error_of_invalid (c : Engine.Criterion) (v : Engine.RawValue)
    (h : Engine.validValue c v = false) :
    ∃ e, Engine.normalize c v = .error e := by
  cases he : Engine.normalize c v with
  | error e => exact ⟨e, rfl⟩
  | ok s =>
    exact absurd ((normalize_ok_iff c v).mp ⟨s, he⟩) (by rw [h]; decide)

lemma normalizeAll_error_cases (input : List (String × Engine.RawValue)) :
    ∀ (cs : List Engine.Criterion) (e : Engine.EngineError),
      Engine.normalizeAll input cs = .error e →
      ∃ c ∈ cs, (∃ msg, e = .invalidMeasurement c.id msg) ∧
        Engine.validValue c (Engine.lookupRaw input c.id) = false := by
  intro cs
  induction cs with
  | nil => intro e h; simp [Engine.normalizeAll] at h
  | cons c rest ih =>
    intro e h
    cases hn : Engine.normalize c (Engine.lookupRaw input c.id) with
    | error e0 =>
      simp only [Engine.normalizeAll, hn] at h
      injection h with h
      subst h
      exact ⟨c, List.mem_cons_self c rest, normalize_error_shape c _ e0 hn⟩
    | ok s =>
      simp only [Engine.normalizeAll, hn] at h
      cases ht : Engine.normalizeAll input rest with
      | error e1 =>
        rw [ht] at h
        injection h with h
        subst h
        obtain ⟨c2, hc2, hp⟩ := ih e1 ht
        exact ⟨c2, List.mem_cons_of_mem c hc2, hp⟩
      | ok tail =>
        rw [ht] at h
        exact Except.noConfusion h

lemma normalizeAll_error_of_invalid (input : List (String × Engine.RawValue)) :
    ∀ cs : List Engine.Criterion,
      (∃ c ∈ cs, Engine.validValue c (Engine.lookupRaw input c.id) = false) →
      ∃ e, Engine.normalizeAll input cs = .error e := by
  intro cs
  induction cs with
  | nil => rintro ⟨c, hc, _⟩; exact absurd hc (List.not_mem_nil c)
  | cons c rest ih =>
    rintro ⟨c0, hc0, hval⟩
    cases hn : Engine.normalize c (Engine.lookupRaw input c.id) with
    | error e0 => exact ⟨e0, by simp [Engine.normalizeAll, hn]⟩
    | ok s =>
      rcases List.mem_cons.mp hc0 with rfl | hmem
      · obtain ⟨e, he⟩ := normalize_error_of_invalid c0 _ hval
        rw [he] at hn
        exact Except.noConfusion hn
      · obtain ⟨e, he⟩ := ih ⟨c0, hmem, hval⟩
        exact ⟨e, by simp [Engine.normalizeAll, hn, he]⟩

lemma normalizeAll_ok_mem (input : List (String × Engine.RawValue)) :
    ∀ (cs : List Engine.Criterion) (ss : List Engine.CriterionScore),
      Engine.normalizeAll input cs = .ok ss →
      ∀ c ∈ cs, ∃ s, Engine.normalize c (Engine.lookupRaw input c.id) = .ok s ∧
        s ∈ ss := by
  intro cs
  induction cs with
  | nil => intro ss _ c hc; exact absurd hc (List.not_mem_nil c)
  | cons c rest ih =>
    intro ss h c0 hc0
    cases hn : Engine.normalize c (Engine.lookupRaw input c.id) with
    | error e0 =>
      simp only [Engine.normalizeAll, hn] at h
      exact Except.noConfusion h
    | ok s =>
      simp only [Engine.normalizeAll, hn] at h
      cases ht : Engine.normalizeAll input rest with
      | error e1 =>
        rw [ht] at h
        exact Except.noConfusion h
      | ok tail =>
        rw [ht] at h
        injection h with h
        subst h
        rcases List.mem_cons.mp hc0 with rfl | hmem
        · exact ⟨s, hn, List.mem_cons_self s tail⟩
        · obtain ⟨s0, h1, h2⟩ := ih tail ht c0 hmem
          exact ⟨s0, h1, List.mem_cons_of_mem s h2⟩

lemma runPipeline_error_iff (cfg : Engine.EngineConfig)
    (input : List (String × Engine.RawValue)) (t : ℕ) (e : Engine.EngineError) :
    Engine.runPipeline cfg input t = .error e ↔
      Engine.normalizeAll input cfg.criteria = .error e := by
  unfold Engine.runPipeline
  cases h : Engine.normalizeAll input cfg.criteria with
  | error e0 => simp
  | ok ss => simp

lemma runPipeline_ok_detail (cfg : Engine.EngineConfig)
    (input : List (String × Engine.RawValue)) (t : ℕ) (r : Engine.DecisionResult)
    (h : Engine.runPipeline cfg input t = .ok r) :
    Engine.normalizeAll input cfg.criteria = .ok r.detailedScores := by
  unfold Engine.runPipeline at h
  cases hn : Engine.normalizeAll input cfg.criteria with
  | error e0 =>
    rw [hn] at h
    exact Except.noConfusion h
  | ok ss =>
    rw [hn] at h
    injection h with h
    subst h
    rfl

lemma goalPenalty_of_target_le (g : Engine.GoalSpec) (s : ℚ)
    (h : g.target ≤ s) : Engine.goalPenalty g s = 0 := by
  unfold Engine.goalPenalty
  rw [max_eq_left (sub_nonpos.mpr h), mul_zero]

end EngineLemmas

/-- C2: the full analysis pipeline is deterministic: for every measurement
set and static configuration, two runs of the pipeline agree on every
field of the `DecisionResult` except the analysis timestamp, stated as a
two-run equality of the timestamp-stripped results even when the two runs
are stamped with different clocks. -/
theorem pipeline_deterministic_modulo_date :
    ∀ (cfg : Engine.EngineConfig) (input : List (String × Engine.RawValue))
      (t1 t2 : ℕ),
      Except.map Engine.stripDate (Engine.runPipeline cfg input t1) =
        Except.map Engine.stripDate (Engine.runPipeline cfg input t2) := by
  intro cfg input t1 t2
  unfold Engine.runPipeline
  cases h : Engine.normalizeAll input cfg.criteria <;> rfl

/-- C3: for every input in which some raw measurement is missing,
non-finite, or out of its physical domain, the engine surfaces a named
`invalidMeasurement` failure bearing the offending criterion's identifier
and returns no `DecisionResult`; conversely a successful run means every
measurement was valid and every produced score comes from `normalize`, so
an invalid value is never silently replaced by a zero score. -/
theorem invalid_measurement_raises_iff :
    ∀ (cfg : Engine.EngineConfig) (input : List (String × Engine.RawValue))
      (t : ℕ),
      ((∃ c ∈ cfg.criteria,
          Engine.validValue c (Engine.lookupRaw input c.id) = false) ↔
        ∃ cid msg,
          Engine.runPipeline cfg input t = .error (.invalidMeasurement cid msg)) ∧
      (∀ cid msg,
        Engine.runPipeline cfg input t = .error (.invalidMeasurement cid msg) →
        ∃ c ∈ cfg.criteria, c.id = cid ∧
          Engine.validValue c (Engine.lookupRaw input c.id) = false) ∧
      (∀ r, Engine.runPipeline cfg input t = .ok r →
        ∀ c ∈ cfg.criteria, ∃ s,
          Engine.normalize c (Engine.lookupRaw input c.id) = .ok s ∧
            s ∈ r.detailedScores) ∧
      ((∃ c ∈ cfg.criteria,
          Engine.validValue c (Engine.lookupRaw input c.id) = false) →
        ∀ r, Engine.runPipeline cfg input t ≠ .ok r) := by
  intro cfg input t
  refine ⟨⟨?_, ?_⟩, ?_, ?_, ?_⟩
  · intro hinv
    obtain ⟨e, he⟩ := normalizeAll_error_of_invalid input cfg.criteria hinv
    obtain ⟨c, _, ⟨msg, hmsg⟩, _⟩ := normalizeAll_error_cases input cfg.criteria e he
    refine ⟨c.id, msg, ?_⟩
    rw [runPipeline_error_iff, ← hmsg]
    exact he
  · rintro ⟨cid, msg, h⟩
    obtain ⟨c, hc, _, hval⟩ := normalizeAll_error_cases input cfg.criteria _
      ((runPipeline_error_iff cfg input t _).mp h)
    exact ⟨c, hc, hval⟩
  · intro cid msg h
    obtain ⟨c, hc, ⟨msg0, hmsg0⟩, hval⟩ := normalizeAll_error_cases input cfg.criteria _
      ((runPipeline_error_iff cfg input t _).mp h)
    injection hmsg0 with hid _
    exact ⟨c, hc, hid.symm, hval⟩
  · intro r h
    exact normalizeAll_ok_mem input cfg.criteria r.detailedScores
      (runPipeline_ok_detail cfg input t r h)
  · intro hinv r hok
    obtain ⟨e, he⟩ := normalizeAll_error_of_invalid input cfg.criteria hinv
    have := runPipeline_ok_detail cfg input t r hok
    rw [he] at this
    exact Except.noConfusion this

/-- C4: for every list of criterion scores and composite score, the risk
assessor derives the risk level exactly from the criteria with score
below 60: none gives 低, exactly one (with no criterion classified 很差)
gives 中, and two or more — or any criterion classified 很差 — give 高;
a named risk factor is emitted for each sub-threshold criterion and a
non-Low risk level comes with at least one mitigation suggestion. -/
theorem risk_level_from_subthreshold_criteria :
    ∀ (scores : List Engine.CriterionScore) (comp : ℚ),
      ((Engine.belowFair scores).length = 0 →
        (Engine.assessRisk scores comp).risk_level = "低") ∧
      ((Engine.belowFair scores).length = 1 ∧
          (∀ c ∈ scores, DecisionAnalysis.getScoreLevel c.score ≠ "很差") →
        (Engine.assessRisk scores comp).risk_level = "中") ∧
      ((2 ≤ (Engine.belowFair scores).length ∨
          ∃ c ∈ scores, DecisionAnalysis.getScoreLevel c.score = "很差") →
        (Engine.assessRisk scores comp).risk_level = "高") ∧
      ((Engine.assessRisk scores comp).risks =
        (Engine.belowFair scores).map (fun c => Engine.riskName c.id)) ∧
      ((Engine.assessRisk scores comp).risk_level = "中" ∨
          (Engine.assessRisk scores comp).risk_level = "高" →
        (Engine.assessRisk scores comp).mitigation_measures ≠ []) := by
  intro scores comp
  refine ⟨?_, ?_, ?_, rfl, ?_⟩
  · intro h
    have hb : Engine.belowFair scores = [] := List.length_eq_zero.mp h
    simp [Engine.assessRisk, hb]
  · rintro ⟨h1, h2⟩
    have hno : ¬∃ c ∈ Engine.belowFair scores,
        DecisionAnalysis.getScoreLevel c.score = "很差" := by
      rintro ⟨c, hc, hl⟩
      exact h2 c (List.mem_filter.mp hc).1 hl
    simp [Engine.assessRisk, h1, hno]
  · intro h
    have hcond : 2 ≤ (Engine.belowFair scores).length ∨
        ∃ c ∈ Engine.belowFair scores,
          DecisionAnalysis.getScoreLevel c.score = "很差" := by
      rcases h with h | ⟨c, hc, hl⟩
      · exact Or.inl h
      · refine Or.inr ⟨c, List.mem_filter.mpr ⟨hc, ?_⟩, hl⟩
        have h45 := (getScoreLevel_veryPoor_iff c.score).mp hl
        exact decide_eq_true (by linarith)
    unfold Engine.assessRisk
    rw [if_pos hcond]
  · intro hlev hm
    have hb : Engine.belowFair scores = [] := List.map_eq_nil_iff.mp hm
    have hlow : (Engine.assessRisk scores comp).risk_level = "低" := by
      simp [Engine.assessRisk, hb]
    rcases hlev with h | h <;> rw [hlow] at h <;> exact absurd h (by decide)

/-- C5: the goal-programming penalty is one-sided: a group's penalty is
its priority times `max 0 (target − groupScore)`, so raising a group's
score that is already at or above its goal target leaves the composite
penalty term unchanged (and both penalties are zero); positive deviation
above target is never penalized. -/
theorem goalPenalty_one_sided :
    ∀ (gs : List (Engine.GoalSpec × ℚ)) (i : ℕ) (g : Engine.GoalSpec)
      (s t : ℚ),
      gs.get? i = some (g, s) → g.target ≤ s → s ≤ t →
      Engine.totalPenalty (gs.set i (g, t)) = Engine.totalPenalty gs ∧
        Engine.goalPenalty g s = 0 ∧ Engine.goalPenalty g t = 0 := by
  intro gs
  induction gs with
  | nil => intro i g s t h; simp at h
  | cons hd tl ih =>
    intro i g s t hget hts hst
    have hzs := goalPenalty_of_target_le g s hts
    have hzt := goalPenalty_of_target_le g t (hts.trans hst)
    refine ⟨?_, hzs, hzt⟩
    cases i with
    | zero =>
      rw [List.get?_cons_zero] at hget
      injection hget with hget
      subst hget
      simp [Engine.totalPenalty, hzs, hzt]
    | succ n =>
      rw [List.get?_cons_succ] at hget
      have h2 := (ih n g s t hget hts hst).1
      simp only [List.set_cons_succ, Engine.totalPenalty, List.map_cons,
        List.sum_cons] at h2 ⊢
      rw [h2]

/-- Witness for C5 at a concrete input: raising the economic group's
score from 75 (already above its target 70) to 95 leaves the total
penalty unchanged. -/
theorem goalPenalty_one_sided_witness :
    Engine.totalPenalty
        (([(economicGoalWit, 75), (naturalGoalWit, 60)] :
          List (Engine.GoalSpec × ℚ)).set 0 (economicGoalWit, 95)) =
      Engine.totalPenalty [(economicGoalWit, 75), (naturalGoalWit, 60)] ∧
    Engine.goalPenalty economicGoalWit 75 = 0 ∧
    Engine.goalPenalty economicGoalWit 95 = 0 :=
  goalPenalty_one_sided [(economicGoalWit, 75), (naturalGoalWit, 60)] 0
    economicGoalWit 75 95 rfl (by norm_num [economicGoalWit]) (by norm_num)

/-- C6: when no criterion is below the Fair threshold the risk
assessor's mitigation list is empty and the `DecisionAnalysis` component
renders the explicit no-mitigation `Alert` rather than an empty list;
conversely a non-empty mitigation list is rendered as the list and the
explicit marker is not shown. -/
theorem empty_mitigation_rendering :
    ∀ (scores : List Engine.CriterionScore) (comp : ℚ) (ms : List String),
      (Engine.belowFair scores = [] →
        (Engine.assessRisk scores comp).mitigation_measures = [] ∧
        DecisionAnalysis.renderMitigation
            (Engine.assessRisk scores comp).mitigation_measures =
          .noMitigationAlert) ∧
      (ms ≠ [] → DecisionAnalysis.renderMitigation ms = .measuresList ms) := by
  intro scores comp ms
  constructor
  · intro hb
    have hm : (Engine.assessRisk scores comp).mitigation_measures = [] := by
      simp [Engine.assessRisk, hb]
    exact ⟨hm, by rw [hm]; rfl⟩
  · intro hms
    unfold DecisionAnalysis.renderMitigation
    rw [if_pos (List.length_pos.mpr hms)]

/-- C7: for every valid raw measurement the output of `normalize` lies in
[0,100]: even when the configured curve's natural range exceeds [0,100]
the score is clamped rather than erroring or escaping the range. -/
theorem normalize_output_clamped :
    ∀ (c : Engine.Criterion) (v : Engine.RawValue) (s : Engine.CriterionScore),
      Engine.normalize c v = .ok s → 0 ≤ s.score ∧ s.score ≤ 100 := by
  intro c v s h
  cases v with
  | missing => exact Except.noConfusion h
  | nonFinite => exact Except.noConfusion h
  | finite x =>
    simp only [Engine.normalize] at h
    split_ifs at h with hd
    injection h with h
    subst h
    exact ⟨clampScore_nonneg _, clampScore_le_100 _⟩

/-- Witness for C7 at a concrete input: `gridCriterion`'s curve maps the
valid raw value 800 to 160, which `normalize` clamps to the in-range
score 100. -/
theorem normalize_output_clamped_witness :
    0 ≤ ({ id := "grid_capacity", score := 100, level := "优秀" } :
        Engine.CriterionScore).score ∧
      ({ id := "grid_capacity", score := 100, level := "优秀" } :
        Engine.CriterionScore).score ≤ 100 :=
  normalize_output_clamped gridCriterion (.finite 800)
    { id := "grid_capacity", score := 100, level := "优秀" } (by
      norm_num [Engine.normalize, gridCriterion, Engine.clampScore,
        DecisionAnalysis.getScoreLevel])
